import Mathlib

/-!
Verification development for the TaskFlow Pro backend.

Shallow embedding of the backend logic:
- backend/models/Task.js        : task schema, virtuals, pre-save hooks,
                                  instance methods, statics, query hooks
- backend/models/User.js        : user schema, password hashing, lockout
                                  bookkeeping, JSON transform, query hooks
- backend/controllers/taskController.js : getTasks, updateTask, getTaskStats
- backend/middleware/auth.js    : bearer-token authorization gate

Modelling conventions:
- Timestamps are integers (milliseconds since epoch, as produced by
  Date.now); "new Date()" at a call site becomes an explicit now argument.
- Mongo ObjectId values are modelled as natural numbers.  Database-side
  comparisons (query filters, aggregation match stages) compare ObjectId
  values and are modelled as id equality.  JavaScript-side strict
  comparisons in the controllers mix runtime types (a string from toString
  against the ObjectId object in req.user.id) and are modelled with
  runtime-typed values, on which strict equality across types is false.
- JS numbers that hold hour/minute quantities are modelled as rationals.
- bcrypt is modelled as a free term algebra over strings: hashing tags the
  input, comparison checks the tag.  This captures the ideal functional
  behaviour of the primitive (compare succeeds exactly on the hashed input,
  and a hash is never literally equal to a plaintext).
-/

namespace TaskflowPro

/-- Task status enumeration from the task schema. -/
inductive Status
  | pending
  | inProgress
  | completed
  | cancelled
  | onHold
deriving DecidableEq, Repr

/-- Task priority enumeration from the task schema. -/
inductive Priority
  | low
  | medium
  | high
  | urgent
deriving DecidableEq, Repr

/-- User role enumeration from the user schema. -/
inductive Role
  | user
  | admin
  | manager
deriving DecidableEq, Repr

/-- Milliseconds since epoch, the value of Date.now and of Date comparisons. -/
abbrev Time := ℤ

/-- User identifier (ObjectId, identified with its string rendering). -/
abbrev UserId := ℕ

/-- An embedded time-log subdocument of a task (duration is in minutes). -/
structure TimeLog where
  startTime : Time
  endTime : Time
  duration : ℚ
  loggedBy : UserId
deriving DecidableEq, Repr

/-- A task document, restricted to the fields the verified claims touch.
Embedded attachment/comment/reminder subdocuments and the free-form
customFields map play no role in any claim and are not modelled. -/
structure Task where
  id : ℕ
  title : String
  status : Status
  priority : Priority
  dueDate : Option Time
  assignedTo : Option UserId
  createdBy : UserId
  estimatedHours : ℚ
  actualHours : ℚ
  completedAt : Option Time
  timeLogs : List TimeLog
  isArchived : Bool
  archivedAt : Option Time
deriving DecidableEq, Repr

/-- Virtual isOverdue: false when there is no due date or the task is
completed or cancelled, otherwise true when now is past the due date. -/
def Task.isOverdue (t : Task) (now : Time) : Bool :=
  match t.dueDate with
  | none => false
  | some due =>
    if t.status = .completed ∨ t.status = .cancelled then false
    else decide (due < now)

/-- Virtual timeSpent: total minutes over the time logs, computed as the
reduce with initial accumulator 0 in the source. -/
def Task.timeSpent (t : Task) : ℚ :=
  t.timeLogs.foldl (fun total log => total + log.duration) 0

/-- The status-based default progress table.  Every status is a key of the
table in the source, so the trailing fallback to 0 there is unreachable. -/
def statusProgress : Status → ℤ
  | .pending => 0
  | .inProgress => 50
  | .onHold => 25
  | .completed => 100
  | .cancelled => 0

/-- Virtual progress: 100 for completed, 0 for cancelled, the capped rounded
ratio of actual to estimated hours when both are positive, otherwise the
status default.  Math.round rounds half away from minus infinity, which is
exactly Mathlib round on rationals. -/
def Task.progress (t : Task) : ℤ :=
  if t.status = .completed then 100
  else if t.status = .cancelled then 0
  else if 0 < t.estimatedHours ∧ 0 < t.actualHours then
    min (round (t.actualHours / t.estimatedHours * 100)) 100
  else statusProgress t.status

/-- The completion/archival pre-save middleware of the task schema: set
completedAt on entry into completed when unset, clear completedAt when the
status is not completed, and set archivedAt on archival when unset.  Note
the hook never clears archivedAt when isArchived goes back to false; only
the unarchive instance method does that. -/
def preSaveCompletion (now : Time) (t : Task) : Task :=
  let t1 :=
    if t.status = .completed ∧ t.completedAt = none then
      { t with completedAt := some now }
    else t
  let t2 :=
    if t1.status ≠ .completed ∧ t1.completedAt ≠ none then
      { t1 with completedAt := none }
    else t1
  if t2.isArchived = true ∧ t2.archivedAt = none then
    { t2 with archivedAt := some now }
  else t2

/-- Saving a task document runs the pre-save middleware and persists the
result.  (The second pre-save hook only increments a user counter and does
not change the task document.) -/
def Task.save (now : Time) (t : Task) : Task :=
  preSaveCompletion now t

/-- A partial update body, as accepted by PUT /api/tasks/:id and applied
with a single Mongo set stage.  A field is updated exactly when present in
the request body. -/
structure TaskUpdate where
  title : Option String := none
  status : Option Status := none
  priority : Option Priority := none
  dueDate : Option (Option Time) := none
  assignedTo : Option (Option UserId) := none
  estimatedHours : Option ℚ := none
  actualHours : Option ℚ := none
  completedAt : Option (Option Time) := none
  isArchived : Option Bool := none
  archivedAt : Option (Option Time) := none
deriving DecidableEq, Repr

/-- Applying the set stage of an update to a stored task document. -/
def applySet (u : TaskUpdate) (t : Task) : Task :=
  { t with
    title := u.title.getD t.title
    status := u.status.getD t.status
    priority := u.priority.getD t.priority
    dueDate := u.dueDate.getD t.dueDate
    assignedTo := u.assignedTo.getD t.assignedTo
    estimatedHours := u.estimatedHours.getD t.estimatedHours
    actualHours := u.actualHours.getD t.actualHours
    completedAt := u.completedAt.getD t.completedAt
    isArchived := u.isArchived.getD t.isArchived
    archivedAt := u.archivedAt.getD t.archivedAt }

/-- Task.findById.  The pre-find query hook of the task schema adds an
isArchived = false condition to every find-family operation unless the
includeArchived option is set, so findById only sees unarchived tasks. -/
def findTaskById (db : List Task) (taskId : ℕ) : Option Task :=
  (db.filter (fun t => t.isArchived = false)).find? (fun t => t.id = taskId)

/-- A JavaScript runtime value taking part in the permission guard of the
task controller: a string (the result of calling toString on an id) or an
ObjectId object (req.user.id, which the auth middleware sets to the raw
ObjectId of the user record). -/
inductive JsIdValue
  | str (s : String)
  | oid (n : ℕ)
deriving DecidableEq, Repr

/-- ObjectId.toString in the model: the rendering of the id number. -/
def oidToString (n : ℕ) : String :=
  toString n

/-- JavaScript strict equality on the values the guard compares.  A string
and an object are never strictly equal, whatever their contents.  (The
guard only ever compares a string against an ObjectId object; the
object-object case, in JavaScript reference identity, does not arise on
this code path and is modelled as id equality.) -/
def jsStrictEq : JsIdValue → JsIdValue → Bool
  | .str a, .str b => a = b
  | .oid a, .oid b => a = b
  | _, _ => false

/-- Error outcomes of the task controller routes. -/
inductive ApiError
  | notFound
  | forbidden
deriving DecidableEq, Repr

/-- The permission guard of updateTask, as written in the controller:
task.createdBy.toString() strictly unequal to req.user.id, and either no
assignee or assignedTo.toString() strictly unequal to req.user.id.  The
left operands are strings produced by toString while req.user.id is the
ObjectId object itself, so both strict comparisons mix runtime types. -/
def updateTaskGuard (t : Task) (requester : UserId) : Bool :=
  !(jsStrictEq (.str (oidToString t.createdBy)) (.oid requester)) &&
    (match t.assignedTo with
     | none => true
     | some a => !(jsStrictEq (.str (oidToString a)) (.oid requester)))

/-- PUT /api/tasks/:id (updateTask in the task controller): look the task
up, reject with 404 when absent, reject with 403 when the permission guard
fires, then write through findByIdAndUpdate with the set stage (which,
unlike a document save, runs no pre-save middleware). -/
def updateTask (db : List Task) (taskId : ℕ) (requester : UserId)
    (body : TaskUpdate) : Except ApiError Task :=
  match findTaskById db taskId with
  | none => .error .notFound
  | some t =>
    if updateTaskGuard t requester then .error .forbidden
    else .ok (applySet body t)

/-- Instance method addTimeLog: push the log, recompute actualHours as the
sum of duration over 60 across all logs, then save the document (which runs
the pre-save middleware). -/
def Task.addTimeLog (now : Time) (t : Task) (log : TimeLog) : Task :=
  let t1 := { t with timeLogs := t.timeLogs ++ [log] }
  let t2 :=
    { t1 with
      actualHours :=
        t1.timeLogs.foldl (fun total (l : TimeLog) => total + l.duration / 60) 0 }
  t2.save now

/-- The or-condition used by the task controller: the requester is creator
or assignee of the task. -/
def matchesUser (uid : UserId) (t : Task) : Bool :=
  t.createdBy = uid || t.assignedTo = some uid

/-- The optional status/priority narrowing of GET /api/tasks after the
query-string handling (a missing parameter or the value all imposes no
condition). -/
structure ListFilter where
  status : Option Status := none
  priority : Option Priority := none
deriving DecidableEq, Repr

/-- The full find condition of GET /api/tasks. -/
def matchesFilter (uid : UserId) (f : ListFilter) (t : Task) : Bool :=
  matchesUser uid t &&
    (match f.status with
     | some s => t.status = s
     | none => true) &&
    (match f.priority with
     | some p => t.priority = p
     | none => true)

/-- GET /api/tasks, tasks array: Task.find on the filter.  The pre-find
query hook adds isArchived = false (includeArchived is not set here).  Sort,
skip and limit only slice this list into pages, so the union of the tasks
arrays over all pages is exactly this list; we model that union. -/
def getTasksAllPages (db : List Task) (uid : UserId) (f : ListFilter) : List Task :=
  (db.filter (fun t => t.isArchived = false)).filter (matchesFilter uid f)

/-- GET /api/tasks, pagination.totalTasks: Task.countDocuments on the same
filter.  countDocuments is not a find-family operation, so the pre-find
hook does not run and no isArchived condition is added. -/
def getTasksTotal (db : List Task) (uid : UserId) (f : ListFilter) : ℕ :=
  (db.filter (matchesFilter uid f)).length

/-- Whether a task counts as overdue for the stats route of the task
controller: due date present and in the past (a query-language lt on a
missing field matches nothing) and status pending or in-progress. -/
def ctrlOverdue (now : Time) (t : Task) : Bool :=
  (match t.dueDate with
   | some d => decide (d < now)
   | none => false) &&
  (t.status = .pending || t.status = .inProgress)

/-- The formatted stats object built by the stats route of the task
controller.  The initial object has keys total, pending, in-progress,
completed and cancelled; the forEach adds an on-hold key dynamically when
such a group exists, so on-hold counts are carried too. -/
structure CtrlStats where
  total : ℕ
  pending : ℕ
  inProgress : ℕ
  completed : ℕ
  cancelled : ℕ
  onHold : ℕ
  overdue : ℕ
deriving DecidableEq, Repr

/-- Count of matched tasks in one status group of the aggregation. -/
def statusGroupCount (matched : List Task) (s : Status) : ℕ :=
  (matched.filter (fun t => t.status = s)).length

/-- GET /api/tasks/stats/overview (getTaskStats in the task controller).
The aggregation matches only on the creator-or-assignee disjunction; no
isArchived condition appears and aggregate bypasses the pre-find query
hook, so archived tasks are counted.  total accumulates the group counts.
The overdue count comes from a separate countDocuments query, which also
runs without the pre-find hook. -/
def getTaskStatsCtrl (now : Time) (db : List Task) (uid : UserId) : CtrlStats :=
  let matched := db.filter (matchesUser uid)
  let c := statusGroupCount matched
  { total :=
      c .pending + c .inProgress + c .completed + c .cancelled + c .onHold
    pending := c .pending
    inProgress := c .inProgress
    completed := c .completed
    cancelled := c .cancelled
    onHold := c .onHold
    overdue :=
      (db.filter (fun t => matchesUser uid t && ctrlOverdue now t)).length }

/-- Rounding to the nearest integer with ties to even, the rounding mode of
the aggregation round operator. -/
def roundHalfEven (q : ℚ) : ℤ :=
  if q - ⌊q⌋ < 1 / 2 then ⌊q⌋
  else if q - ⌊q⌋ = 1 / 2 then (if ⌊q⌋ % 2 = 0 then ⌊q⌋ else ⌊q⌋ + 1)
  else ⌊q⌋ + 1

/-- The aggregation round to 2 decimal places. -/
def mongoRound2 (q : ℚ) : ℚ :=
  (roundHalfEven (q * 100) : ℚ) / 100

/-- The projected stats document of the getTaskStats static of the task
model.  The status/priority breakdown objects of the projection are not
used by any claim and are not modelled. -/
structure ModelStats where
  totalTasks : ℕ
  completedTasks : ℕ
  overdueTasks : ℕ
  totalEstimatedHours : ℚ
  totalActualHours : ℚ
  completionRate : ℚ
  efficiency : ℚ
deriving DecidableEq, Repr

/-- The match stage of the getTaskStats static: unarchived, and when a user
id is given, creator or assignee. -/
def modelStatsMatch (uid : Option UserId) (t : Task) : Bool :=
  t.isArchived = false &&
    (match uid with
     | some u => matchesUser u t
     | none => true)

/-- Whether a task counts as overdue in the aggregation of the getTaskStats
static: status neither completed nor cancelled, and dueDate lt now as an
aggregation comparison.  In the aggregation expression language a missing
dueDate sorts below every date, so a task without a due date satisfies the
lt condition. -/
def modelOverdue (now : Time) (t : Task) : Bool :=
  (!(t.status = .completed)) && (!(t.status = .cancelled)) &&
    (match t.dueDate with
     | some d => decide (d < now)
     | none => true)

/-- The getTaskStats static of the task model.  A group stage over an empty
match produces no document, so the static returns null exactly when no task
matches; otherwise one stats document is projected. -/
def getTaskStatsModel (now : Time) (db : List Task) (uid : Option UserId) :
    Option ModelStats :=
  let matched := db.filter (modelStatsMatch uid)
  match matched with
  | [] => none
  | _ =>
    let totalTasks := matched.length
    let completedTasks := (matched.filter (fun t => t.status = .completed)).length
    let totalEstimatedHours := (matched.map Task.estimatedHours).sum
    let totalActualHours := (matched.map Task.actualHours).sum
    some
      { totalTasks := totalTasks
        completedTasks := completedTasks
        overdueTasks := (matched.filter (modelOverdue now)).length
        totalEstimatedHours := totalEstimatedHours
        totalActualHours := totalActualHours
        completionRate :=
          if totalTasks = 0 then 0
          else mongoRound2 ((completedTasks : ℚ) / (totalTasks : ℚ) * 100)
        efficiency :=
          if totalEstimatedHours = 0 then 0
          else mongoRound2 (totalActualHours / totalEstimatedHours * 100) }

/-- The value space of the stored password string, as a free algebra: a
literal string, or the bcrypt hash of a previous value at some cost.  This
is the idealised functional model of bcrypt; in particular a hash value is
a distinct term from every literal. -/
inductive PwString
  | lit (s : String)
  | bcryptHash (cost : ℕ) (input : PwString)
deriving DecidableEq, Repr

/-- bcrypt.compare: true exactly when the stored value is a bcrypt hash of
the candidate plaintext (a stored literal is not a valid hash and never
compares true). -/
def bcryptCompare (candidate : String) (stored : PwString) : Bool :=
  match stored with
  | .bcryptHash _ input => input = PwString.lit candidate
  | .lit _ => false

/-- A user document, restricted to the fields the verified claims touch.
The nested preferences/profile objects are public pass-through data and are
not modelled. -/
structure User where
  id : ℕ
  name : String
  email : String
  password : PwString
  role : Role
  isVerified : Bool
  isActive : Bool
  lastLogin : Option Time
  loginAttempts : ℕ
  lockUntil : Option Time
  tasksCreated : ℕ
  tasksCompleted : ℕ
  totalTimeSpent : ℕ
deriving DecidableEq, Repr

/-- Virtual isLocked: lockUntil is set and strictly in the future. -/
def User.isLocked (u : User) (now : Time) : Bool :=
  match u.lockUntil with
  | some t => decide (now < t)
  | none => false

/-- The password-hashing pre-save middleware of the user schema: when the
password path was modified in this save, replace the stored value by its
bcrypt hash at cost 12; otherwise leave the document unchanged. -/
def preSavePassword (passwordModified : Bool) (u : User) : User :=
  if passwordModified then
    { u with password := PwString.bcryptHash 12 u.password }
  else u

/-- Instance method handleFailedLogin: increment the attempt counter and,
at 5 or more attempts while not already locked, set lockUntil 30 minutes
(1800000 ms) from now. -/
def handleFailedLogin (now : Time) (u : User) : User :=
  let u1 := { u with loginAttempts := u.loginAttempts + 1 }
  if 5 ≤ u1.loginAttempts ∧ u1.isLocked now = false then
    { u1 with lockUntil := some (now + 30 * 60 * 1000) }
  else u1

/-- Instance method resetLoginAttempts. -/
def resetLoginAttempts (u : User) : User :=
  { u with loginAttempts := 0, lockUntil := none }

/-- The error thrown by comparePassword on a locked account. -/
inductive AuthError
  | accountLocked
deriving DecidableEq, Repr

/-- Instance method comparePassword: throw when locked; on a hash mismatch
record the failed attempt and return false; on a match reset the counters
when they are dirty, record the login time, and return true.  The result
carries the persisted user document. -/
def comparePassword (now : Time) (u : User) (candidate : String) :
    Except AuthError (User × Bool) :=
  if u.isLocked now = true then .error .accountLocked
  else if bcryptCompare candidate u.password = false then
    .ok (handleFailedLogin now u, false)
  else
    let u1 :=
      if 0 < u.loginAttempts ∨ u.lockUntil ≠ none then resetLoginAttempts u
      else u
    .ok ({ u1 with lastLogin := some now }, true)

/-- The JSON shape of a serialised user: virtuals are enabled, so the
derived id, fullName and isLocked values are materialised into the output
before the transform deletes the password, loginAttempts and lockUntil
fields.  isLocked survives the transform. -/
structure UserJson where
  id : ℕ
  fullName : String
  isLocked : Bool
  name : String
  email : String
  role : Role
  isVerified : Bool
  isActive : Bool
  lastLogin : Option Time
  tasksCreated : ℕ
  tasksCompleted : ℕ
  totalTimeSpent : ℕ
deriving DecidableEq, Repr

/-- The toJSON transform of the user schema (evaluated at serialisation
time now, on which the isLocked virtual depends). -/
def User.toJson (now : Time) (u : User) : UserJson :=
  { id := u.id
    fullName := u.name
    isLocked := u.isLocked now
    name := u.name
    email := u.email
    role := u.role
    isVerified := u.isVerified
    isActive := u.isActive
    lastLogin := u.lastLogin
    tasksCreated := u.tasksCreated
    tasksCompleted := u.tasksCompleted
    totalTimeSpent := u.totalTimeSpent }

/-- User.findById as seen by the authorization gate.  The pre-find query
hook of the user schema adds an isActive = true condition unless the
includeInactive option is set, so inactive users resolve to null. -/
def findUserById (db : List User) (uid : ℕ) : Option User :=
  (db.filter (fun u => u.isActive = true)).find? (fun u => u.id = uid)

/-- Outcome of jwt.verify on a token string: the embedded user id, or one
of the two library error kinds the middleware distinguishes. -/
inductive TokenVerify
  | valid (userId : ℕ)
  | malformed
  | expired
deriving DecidableEq, Repr

/-- The identity object the gate attaches to the request context. -/
structure AuthedUser where
  id : ℕ
  name : String
  email : String
  role : Role
  isVerified : Bool
deriving DecidableEq, Repr

/-- Failure of the authorization gate; every branch of the middleware that
rejects does so with status 401. -/
inductive AuthFailure
  | unauthenticated
deriving DecidableEq, Repr

/-- The authorization gate (auth middleware).  Reject when the header is
absent or lacks the Bearer scheme, when the remaining token is empty, when
verification fails as malformed or expired, or when the embedded user id
resolves to no active user; otherwise attach the resolved identity.
Stripping the first Bearer-plus-space occurrence from a header that starts
with it is dropping its first 7 characters.  The verifier is a parameter
standing for the jwt library closed over the signing secret. -/
def authGate (verify : String → TokenVerify) (db : List User)
    (authHeader : Option String) : Except AuthFailure AuthedUser :=
  match authHeader with
  | none => .error .unauthenticated
  | some header =>
    if header.startsWith "Bearer " = false then .error .unauthenticated
    else
      let token := header.drop 7
      if token = "" then .error .unauthenticated
      else
        match verify token with
        | .malformed => .error .unauthenticated
        | .expired => .error .unauthenticated
        | .valid userId =>
          match findUserById db userId with
          | none => .error .unauthenticated
          | some u =>
            .ok
              { id := u.id
                name := u.name
                email := u.email
                role := u.role
                isVerified := u.isVerified }

/-! Concrete instances used to evaluate the embedded operations. -/

/-- A plain unarchived pending task created by user 7. -/
def baseTask : Task :=
  { id := 1
    title := "Write spec"
    status := .pending
    priority := .high
    dueDate := none
    assignedTo := none
    createdBy := 7
    estimatedHours := 0
    actualHours := 0
    completedAt := none
    timeLogs := []
    isArchived := false
    archivedAt := none }

/-- The in-progress task of the progress scenario. -/
def c7Task : Task :=
  { baseTask with status := .inProgress, estimatedHours := 10, actualHours := 5 }

/-- An archived task created by user 1. -/
def archivedTask : Task :=
  { baseTask with id := 2, createdBy := 1, isArchived := true, archivedAt := some 5 }

/-- An on-hold task of user 1 whose due date is in the past at time 0. -/
def onHoldDueTask : Task :=
  { baseTask with id := 3, createdBy := 1, status := .onHold, dueDate := some (-1) }

/-- A completed task of user 1 with estimated and actual hours. -/
def doneTask : Task :=
  { baseTask with
    id := 4
    createdBy := 1
    status := .completed
    completedAt := some 1
    estimatedHours := 4
    actualHours := 1 }

/-- A small database for the model stats static: one completed task with
hours and one plain pending task, both of user 1. -/
def c5Db : List Task :=
  [doneTask, { baseTask with id := 5, createdBy := 1 }]

/-- The stats document the model static projects for c5Db and user 1 at
time 0.  The pending task has no due date, which the aggregation lt treats
as below every date, hence one overdue task. -/
def c5Stats : ModelStats :=
  { totalTasks := 2
    completedTasks := 1
    overdueTasks := 1
    totalEstimatedHours := 4
    totalActualHours := 1
    completionRate := 50
    efficiency := 25 }

/-- A database mixing an archived and an unarchived match for user 1. -/
def c9Db : List Task :=
  [{ baseTask with id := 6, createdBy := 1 }, archivedTask]

/-- A user whose stored password is the bcrypt hash of Secret1. -/
def c2User : User :=
  { id := 1
    name := "Ann"
    email := "ann@example.com"
    password := PwString.bcryptHash 12 (PwString.lit "Secret1")
    role := .user
    isVerified := true
    isActive := true
    lastLogin := none
    loginAttempts := 0
    lockUntil := none
    tasksCreated := 0
    tasksCompleted := 0
    totalTimeSpent := 0 }

/-- The same account, locked until time 1000. -/
def c8LockedUser : User :=
  { c2User with lockUntil := some 1000 }

/-- The same account with a different stored password and attempt count. -/
def c8OtherPwUser : User :=
  { c2User with
    password := PwString.bcryptHash 12 (PwString.lit "Other2")
    loginAttempts := 3 }

/-- A token verifier recognising exactly the token tok1 for user 1. -/
def c6Verify : String → TokenVerify :=
  fun s => if s = "tok1" then .valid 1 else .malformed

/-- A one-user database for the authorization gate. -/
def c6Db : List User := [c2User]

/-! Helper lemmas. -/

lemma foldl_add_shift (ls : List TimeLog) (a : ℚ) :
    ls.foldl (fun tot (l : TimeLog) => tot + l.duration) a
      = a + ls.foldl (fun tot (l : TimeLog) => tot + l.duration) 0 := by
  induction ls generalizing a with
  | nil => simp
  | cons hd tl ih =>
    simp only [List.foldl_cons]
    rw [ih (a + hd.duration), ih (0 + hd.duration)]
    ring

lemma foldl_div60_shift (ls : List TimeLog) (a : ℚ) :
    ls.foldl (fun tot (l : TimeLog) => tot + l.duration / 60) a
      = a + (ls.foldl (fun tot (l : TimeLog) => tot + l.duration) 0) / 60 := by
  induction ls generalizing a with
  | nil => simp
  | cons hd tl ih =>
    simp only [List.foldl_cons]
    rw [ih (a + hd.duration / 60), foldl_add_shift tl (0 + hd.duration)]
    ring

lemma preSaveCompletion_timeLogs (now : Time) (t : Task) :
    (preSaveCompletion now t).timeLogs = t.timeLogs := by
  simp only [preSaveCompletion]
  split_ifs <;> rfl

lemma preSaveCompletion_actualHours (now : Time) (t : Task) :
    (preSaveCompletion now t).actualHours = t.actualHours := by
  simp only [preSaveCompletion]
  split_ifs <;> rfl

lemma statusGroupCount_cons (hd : Task) (tl : List Task) (s : Status) :
    statusGroupCount (hd :: tl) s
      = (if hd.status = s then 1 else 0) + statusGroupCount tl s := by
  by_cases h : hd.status = s <;>
    simp [statusGroupCount, List.filter_cons, h, Nat.add_comm]

lemma statusPartition (l : List Task) :
    statusGroupCount l .pending + statusGroupCount l .inProgress +
      statusGroupCount l .completed + statusGroupCount l .cancelled +
      statusGroupCount l .onHold = l.length := by
  induction l with
  | nil => rfl
  | cons hd tl ih =>
    rw [statusGroupCount_cons, statusGroupCount_cons, statusGroupCount_cons,
      statusGroupCount_cons, statusGroupCount_cons]
    cases h : hd.status <;> simp [h] <;> omega

lemma ctrl_status_count (db : List Task) (uid : UserId) (s : Status) :
    statusGroupCount (db.filter (matchesUser uid)) s
      = db.countP fun t => matchesUser uid t && (t.status = s) := by
  rw [statusGroupCount, ← List.countP_eq_length_filter, List.countP_filter]
  exact List.countP_congr fun t _ => by simp [Bool.and_comm]

lemma ctrlOverdue_eq_isOverdue (now : Time) (t : Task) :
    ctrlOverdue now t
      = (t.isOverdue now && (t.status = .pending || t.status = .inProgress)) := by
  cases hd : t.dueDate <;> cases hs : t.status <;>
    simp [ctrlOverdue, Task.isOverdue, hd, hs]

lemma overdue_eq_countP (now : Time) (db : List Task) (uid : UserId) :
    (getTaskStatsCtrl now db uid).overdue
      = db.countP fun t =>
          matchesUser uid t &&
            (t.isOverdue now && (t.status = .pending || t.status = .inProgress)) := by
  show (db.filter fun t => matchesUser uid t && ctrlOverdue now t).length = _
  rw [← List.countP_eq_length_filter]
  exact List.countP_congr fun t _ => by rw [ctrlOverdue_eq_isOverdue]

/-! Claim theorems. -/

/-- Claim C7: the derived progress is 100 when the status is completed, 0
when cancelled, the rounded actual-over-estimated percentage capped at 100
when both hour fields are positive, and the status default otherwise; in
particular estimatedHours 10, actualHours 5 and status in-progress give
progress 50. -/
theorem c7_progress (t : Task) :
    (t.status = .completed → t.progress = 100) ∧
    (t.status = .cancelled → t.progress = 0) ∧
    (t.status ≠ .completed → t.status ≠ .cancelled →
      0 < t.estimatedHours → 0 < t.actualHours →
      t.progress = min (round (t.actualHours / t.estimatedHours * 100)) 100) ∧
    (t.status ≠ .completed → t.status ≠ .cancelled →
      ¬(0 < t.estimatedHours ∧ 0 < t.actualHours) →
      t.progress = statusProgress t.status) ∧
    (t.status = .inProgress → t.estimatedHours = 10 → t.actualHours = 5 →
      t.progress = 50) := by
  refine ⟨fun h => ?_, fun h => ?_, fun h1 h2 h3 h4 => ?_,
    fun h1 h2 h3 => ?_, fun hs he ha => ?_⟩
  · simp [Task.progress, h]
  · simp [Task.progress, h]
  · simp [Task.progress, h1, h2, h3, h4]
  · simp [Task.progress, h1, h2, h3]
  · simp [Task.progress, hs, he, ha]
    norm_num [round_eq]

/-- Witness for C7 at the concrete scenario task. -/
theorem c7_progress_witness : c7Task.progress = 50 :=
  (c7_progress c7Task).2.2.2.2 rfl rfl rfl

/-- Claim C10: after addTimeLog, actualHours equals the derived timeSpent
total of logged minutes divided by 60. -/
theorem c10_addTimeLog_hours (now : Time) (t : Task) (log : TimeLog) :
    (Task.addTimeLog now t log).actualHours
      = (Task.addTimeLog now t log).timeSpent / 60 := by
  simp only [Task.addTimeLog, Task.save, preSaveCompletion_actualHours,
    preSaveCompletion_timeLogs, Task.timeSpent]
  rw [foldl_div60_shift]
  simp

lemma updateTaskGuard_true (t : Task) (r : UserId) :
    updateTaskGuard t r = true := by
  cases h : t.assignedTo <;> simp [updateTaskGuard, jsStrictEq, h]

/-- Claim C1 (code bug demonstration): no update ever completes.  The
permission guard strictly compares the string task.createdBy.toString()
against the ObjectId object req.user.id, values of different runtime types
that are never strictly equal, so every PUT /api/tasks/:id that finds its
task answers 403, the creator included; in particular the claim scenario
(the creator setting status to completed) is rejected and completedAt is
never recomputed by an update.  (Had the guard ever passed, the write
would go through findByIdAndUpdate, which runs no pre-save middleware
either.) -/
theorem c1_update_never_completes :
    (∀ (db : List Task) (taskId : ℕ) (requester : UserId) (body : TaskUpdate),
      updateTask db taskId requester body = Except.error ApiError.notFound ∨
      updateTask db taskId requester body = Except.error ApiError.forbidden) ∧
    updateTask [baseTask] 1 7 { status := some Status.completed }
      = Except.error ApiError.forbidden := by
  constructor
  · intro db taskId requester body
    unfold updateTask
    cases hf : findTaskById db taskId with
    | none => exact Or.inl rfl
    | some t => simp [updateTaskGuard_true]
  · rfl

/-- Claim C3 (counterexample): the stats route counts archived tasks.  For
a database holding one archived task of the requester, the total is 1, so
archived tasks are not excluded from the returned counts. -/
theorem c3_counterexample :
    archivedTask.isArchived = true ∧
    matchesUser 1 archivedTask = true ∧
    (getTaskStatsCtrl 0 [archivedTask] 1).total = 1 := by
  decide

/-- Claim C3 (amended): the stats route counts exactly the tasks where the
requester is creator or assignee, with no archived exclusion anywhere: the
aggregation bypasses the pre-find query hook and the overdue count uses
countDocuments, which the hook does not cover.  Total, per-status and
overdue counts all range over archived and unarchived tasks alike. -/
theorem c3_amended (now : Time) (db : List Task) (uid : UserId) :
    ((getTaskStatsCtrl now db uid).total = db.countP (matchesUser uid)) ∧
    ((getTaskStatsCtrl now db uid).pending
      = db.countP fun t => matchesUser uid t && (t.status = .pending)) ∧
    ((getTaskStatsCtrl now db uid).inProgress
      = db.countP fun t => matchesUser uid t && (t.status = .inProgress)) ∧
    ((getTaskStatsCtrl now db uid).completed
      = db.countP fun t => matchesUser uid t && (t.status = .completed)) ∧
    ((getTaskStatsCtrl now db uid).cancelled
      = db.countP fun t => matchesUser uid t && (t.status = .cancelled)) ∧
    ((getTaskStatsCtrl now db uid).onHold
      = db.countP fun t => matchesUser uid t && (t.status = .onHold)) ∧
    ((getTaskStatsCtrl now db uid).overdue
      = db.countP fun t =>
          matchesUser uid t &&
            (t.isOverdue now && (t.status = .pending || t.status = .inProgress))) := by
  refine ⟨?_, ctrl_status_count db uid .pending, ctrl_status_count db uid .inProgress,
    ctrl_status_count db uid .completed, ctrl_status_count db uid .cancelled,
    ctrl_status_count db uid .onHold, overdue_eq_countP now db uid⟩
  show statusGroupCount (db.filter (matchesUser uid)) .pending + _ + _ + _ + _ = _
  rw [statusPartition, ← List.countP_eq_length_filter]

/-- Claim C4 (counterexample): an on-hold task of the requester whose due
date has passed is not counted as overdue by the stats route, whose status
window is pending and in-progress only. -/
theorem c4_counterexample :
    onHoldDueTask.status = Status.onHold ∧
    onHoldDueTask.dueDate = some (-1) ∧ ((-1 : ℤ) < 0) ∧
    matchesUser 1 onHoldDueTask = true ∧
    (getTaskStatsCtrl 0 [onHoldDueTask] 1).overdue = 0 := by
  decide

/-- Claim C4 (amended): the overdue count of the stats route equals the
number of tasks of the requester that are overdue at query time with status
pending or in-progress; on-hold tasks are never counted. -/
theorem c4_amended (now : Time) (db : List Task) (uid : UserId) :
    (getTaskStatsCtrl now db uid).overdue
      = db.countP fun t =>
          matchesUser uid t &&
            (t.isOverdue now && (t.status = .pending || t.status = .inProgress)) :=
  overdue_eq_countP now db uid

/-- Claim C5 (counterexample): when no task matches, the getTaskStats
static returns null rather than a stats object, so no completionRate value
(0 or otherwise) is produced at total 0. -/
theorem c5_counterexample : getTaskStatsModel 0 [] (some 1) = none := rfl

/-- Claim C5 (amended): the getTaskStats static returns null exactly when
no task matches (so no division error is ever raised and the zero-total
guard in the projection is unreachable); every returned stats object has a
positive total, completionRate equal to the completed-over-total
percentage rounded to two decimals, and efficiency 0 when total estimated
hours are 0 and the rounded actual-over-estimated percentage otherwise. -/
theorem c5_amended (now : Time) (db : List Task) (uid : Option UserId) :
    (db.filter (modelStatsMatch uid) = [] → getTaskStatsModel now db uid = none) ∧
    (∀ s, getTaskStatsModel now db uid = some s →
      0 < s.totalTasks ∧
      s.completionRate
        = mongoRound2 ((s.completedTasks : ℚ) / (s.totalTasks : ℚ) * 100) ∧
      (s.totalEstimatedHours = 0 → s.efficiency = 0) ∧
      (s.totalEstimatedHours ≠ 0 →
        s.efficiency
          = mongoRound2 (s.totalActualHours / s.totalEstimatedHours * 100))) := by
  constructor
  · intro h
    simp [getTaskStatsModel, h]
  · intro s hs
    cases hmatch : db.filter (modelStatsMatch uid) with
    | nil => simp [getTaskStatsModel, hmatch] at hs
    | cons hd tl =>
      simp only [getTaskStatsModel, hmatch, Option.some.injEq] at hs
      subst hs
      refine ⟨by simp, by simp, fun h0 => ?_, fun h0 => ?_⟩
      · dsimp only at h0 ⊢
        rw [if_pos h0]
      · dsimp only at h0 ⊢
        rw [if_neg h0]

/-- Witness for C5 at a concrete two-task database of user 1. -/
theorem c5_amended_witness :
    0 < c5Stats.totalTasks ∧
    c5Stats.completionRate
      = mongoRound2 ((c5Stats.completedTasks : ℚ) / (c5Stats.totalTasks : ℚ) * 100) ∧
    c5Stats.efficiency
      = mongoRound2 (c5Stats.totalActualHours / c5Stats.totalEstimatedHours * 100) := by
  have hc : getTaskStatsModel 0 c5Db (some 1) = some c5Stats := by
    with_unfolding_all decide
  have h := (c5_amended 0 c5Db (some 1)).2 c5Stats hc
  refine ⟨h.1, h.2.1, h.2.2.2 ?_⟩
  norm_num [c5Stats]

lemma countP_and_split (l : List Task) (p q : Task → Bool) :
    l.countP p
      = l.countP (fun t => p t && q t) + l.countP (fun t => p t && !q t) := by
  induction l with
  | nil => rfl
  | cons hd tl ih =>
    by_cases hp : p hd <;> by_cases hq : q hd <;>
      simp [List.countP_cons, hp, hq, ih] <;> omega

/-- Claim C9: the list route returns no archived task (the pre-find hook
filters them out of Task.find), while pagination.totalTasks comes from
countDocuments on the same filter without that hook, so the total also
counts archived matches; whenever an archived task matches the filter, the
total strictly exceeds the number of tasks retrievable through all pages. -/
theorem c9_archived_total_mismatch (db : List Task) (uid : UserId) (f : ListFilter) :
    (∀ t ∈ getTasksAllPages db uid f, t.isArchived = false) ∧
    (getTasksTotal db uid f
      = (getTasksAllPages db uid f).length
        + db.countP (fun t => matchesFilter uid f t && t.isArchived)) ∧
    (∀ t ∈ db, matchesFilter uid f t = true → t.isArchived = true →
      (getTasksAllPages db uid f).length < getTasksTotal db uid f) := by
  have hTotal : getTasksTotal db uid f = db.countP (matchesFilter uid f) :=
    (List.countP_eq_length_filter _ db).symm
  have hPages : (getTasksAllPages db uid f).length
      = db.countP (fun t => matchesFilter uid f t && !t.isArchived) := by
    show ((db.filter fun t => t.isArchived = false).filter (matchesFilter uid f)).length = _
    rw [← List.countP_eq_length_filter, List.countP_filter]
    exact List.countP_congr fun t _ => by cases h : t.isArchived <;> simp [h]
  refine ⟨?_, ?_, ?_⟩
  · intro t ht
    simp only [getTasksAllPages, List.mem_filter] at ht
    simpa using ht.1.2
  · rw [hTotal, hPages, countP_and_split db (matchesFilter uid f) (fun t => t.isArchived)]
    omega
  · intro t ht hm ha
    have hpos : 0 < db.countP (fun t => matchesFilter uid f t && t.isArchived) :=
      List.countP_pos_iff.mpr ⟨t, ht, by simp [hm, ha]⟩
    have hsplit := countP_and_split db (matchesFilter uid f) (fun t => t.isArchived)
    rw [hTotal, hPages]
    omega

/-- Witness for C9 at a concrete database holding an archived match. -/
theorem c9_witness :
    (getTasksAllPages c9Db 1 {}).length < getTasksTotal c9Db 1 {} :=
  (c9_archived_total_mismatch c9Db 1 {}).2.2 archivedTask (by decide) (by decide)
    (by decide)

lemma isLocked_of_none (u : User) (t : Time) (h : u.lockUntil = none) :
    u.isLocked t = false := by
  simp [User.isLocked, h]

lemma isLocked_of_some (u : User) (t T : Time) (h : u.lockUntil = some T) :
    u.isLocked t = decide (t < T) := by
  simp [User.isLocked, h]

lemma handleFailedLogin_password (now : Time) (u : User) :
    (handleFailedLogin now u).password = u.password := by
  simp only [handleFailedLogin]
  split_ifs <;> rfl

lemma handleFailedLogin_attempts (now : Time) (u : User) :
    (handleFailedLogin now u).loginAttempts = u.loginAttempts + 1 := by
  simp only [handleFailedLogin]
  split_ifs <;> rfl

lemma handleFailedLogin_lock_small (now : Time) (u : User)
    (h : u.loginAttempts + 1 < 5) :
    (handleFailedLogin now u).lockUntil = u.lockUntil := by
  simp only [handleFailedLogin]
  split_ifs with hc
  · exact absurd hc.1 (by omega)
  · rfl

lemma handleFailedLogin_fires (now : Time) (u : User)
    (h4 : u.loginAttempts = 4) (hN : u.lockUntil = none) :
    (handleFailedLogin now u).lockUntil = some (now + 30 * 60 * 1000) := by
  simp only [handleFailedLogin]
  rw [if_pos]
  constructor
  · show 5 ≤ u.loginAttempts + 1
    omega
  · exact isLocked_of_none _ now hN

lemma comparePassword_wrong (now : Time) (u : User) (pw : String)
    (hL : u.isLocked now = false) (hw : bcryptCompare pw u.password = false) :
    comparePassword now u pw = .ok (handleFailedLogin now u, false) := by
  simp [comparePassword, hL, hw]

lemma comparePassword_locked (now : Time) (u : User) (cand : String)
    (hL : u.isLocked now = true) :
    comparePassword now u cand = .error .accountLocked := by
  simp [comparePassword, hL]

/-- Claim C2: from a clean account, five comparePassword calls with a wrong
password all proceed (each returns false and records the failure), the
fifth sets lockUntil 30 minutes past its call time, and any further call
strictly before that moment throws the account-locked error whatever
password is supplied. -/
theorem c2_lockout (u0 : User) (pw cand : String) (t1 t2 t3 t4 t5 tq : Time)
    (h0 : u0.loginAttempts = 0) (hN : u0.lockUntil = none)
    (hw : bcryptCompare pw u0.password = false)
    (hq : tq < t5 + 30 * 60 * 1000) :
    comparePassword t1 u0 pw = .ok (handleFailedLogin t1 u0, false) ∧
    comparePassword t2 (handleFailedLogin t1 u0) pw
      = .ok (handleFailedLogin t2 (handleFailedLogin t1 u0), false) ∧
    comparePassword t3 (handleFailedLogin t2 (handleFailedLogin t1 u0)) pw
      = .ok (handleFailedLogin t3 (handleFailedLogin t2 (handleFailedLogin t1 u0)),
          false) ∧
    comparePassword t4
        (handleFailedLogin t3 (handleFailedLogin t2 (handleFailedLogin t1 u0))) pw
      = .ok (handleFailedLogin t4
          (handleFailedLogin t3 (handleFailedLogin t2 (handleFailedLogin t1 u0))),
          false) ∧
    comparePassword t5
        (handleFailedLogin t4
          (handleFailedLogin t3 (handleFailedLogin t2 (handleFailedLogin t1 u0)))) pw
      = .ok (handleFailedLogin t5
          (handleFailedLogin t4
            (handleFailedLogin t3 (handleFailedLogin t2 (handleFailedLogin t1 u0)))),
          false) ∧
    (handleFailedLogin t5
        (handleFailedLogin t4
          (handleFailedLogin t3
            (handleFailedLogin t2 (handleFailedLogin t1 u0))))).lockUntil
      = some (t5 + 30 * 60 * 1000) ∧
    comparePassword tq
        (handleFailedLogin t5
          (handleFailedLogin t4
            (handleFailedLogin t3 (handleFailedLogin t2 (handleFailedLogin t1 u0)))))
        cand
      = .error .accountLocked := by
  set u1 := handleFailedLogin t1 u0 with hu1
  set u2 := handleFailedLogin t2 u1 with hu2
  set u3 := handleFailedLogin t3 u2 with hu3
  set u4 := handleFailedLogin t4 u3 with hu4
  set u5 := handleFailedLogin t5 u4 with hu5
  have p1 : u1.password = u0.password := handleFailedLogin_password t1 u0
  have a1 : u1.loginAttempts = 1 := by
    rw [hu1, handleFailedLogin_attempts, h0]
  have l1 : u1.lockUntil = none := by
    rw [hu1, handleFailedLogin_lock_small t1 u0 (by omega), hN]
  have p2 : u2.password = u0.password :=
    (handleFailedLogin_password t2 u1).trans p1
  have a2 : u2.loginAttempts = 2 := by
    rw [hu2, handleFailedLogin_attempts, a1]
  have l2 : u2.lockUntil = none := by
    rw [hu2, handleFailedLogin_lock_small t2 u1 (by omega), l1]
  have p3 : u3.password = u0.password :=
    (handleFailedLogin_password t3 u2).trans p2
  have a3 : u3.loginAttempts = 3 := by
    rw [hu3, handleFailedLogin_attempts, a2]
  have l3 : u3.lockUntil = none := by
    rw [hu3, handleFailedLogin_lock_small t3 u2 (by omega), l2]
  have p4 : u4.password = u0.password :=
    (handleFailedLogin_password t4 u3).trans p3
  have a4 : u4.loginAttempts = 4 := by
    rw [hu4, handleFailedLogin_attempts, a3]
  have l4 : u4.lockUntil = none := by
    rw [hu4, handleFailedLogin_lock_small t4 u3 (by omega), l3]
  have l5 : u5.lockUntil = some (t5 + 30 * 60 * 1000) := by
    rw [hu5, handleFailedLogin_fires t5 u4 a4 l4]
  have hL5 : u5.isLocked tq = true := by
    rw [isLocked_of_some u5 tq (t5 + 30 * 60 * 1000) l5]
    exact decide_eq_true hq
  refine ⟨?_, ?_, ?_, ?_, ?_, l5, comparePassword_locked tq u5 cand hL5⟩
  · exact comparePassword_wrong t1 u0 pw (isLocked_of_none u0 t1 hN) hw
  · exact comparePassword_wrong t2 u1 pw (isLocked_of_none u1 t2 l1)
      (p1 ▸ hw)
  · exact comparePassword_wrong t3 u2 pw (isLocked_of_none u2 t3 l2)
      (p2 ▸ hw)
  · exact comparePassword_wrong t4 u3 pw (isLocked_of_none u3 t4 l3)
      (p3 ▸ hw)
  · exact comparePassword_wrong t5 u4 pw (isLocked_of_none u4 t5 l4)
      (p4 ▸ hw)

/-- Witness for C2: the concrete account locked by five wrong attempts at
time 0 rejects the correct password at time 10. -/
theorem c2_lockout_witness :
    comparePassword 10
        (handleFailedLogin 0
          (handleFailedLogin 0
            (handleFailedLogin 0 (handleFailedLogin 0 (handleFailedLogin 0 c2User)))))
        "Secret1"
      = .error .accountLocked :=
  (c2_lockout c2User "wrong" "Secret1" 0 0 0 0 0 10 rfl rfl (by decide)
    (by decide)).2.2.2.2.2.2

/-- Claim C6: the authorization gate rejects with 401 when the bearer token
is missing (no header, wrong scheme, or empty token), malformed or expired,
or when the embedded user id resolves to no user through the active-only
find hook (covering deleted and deactivated users); otherwise it attaches
the resolved identity fields to the request context. -/
theorem c6_auth_gate (verify : String → TokenVerify) (db : List User) :
    (authGate verify db none = .error .unauthenticated) ∧
    (∀ h, h.startsWith "Bearer " = false →
      authGate verify db (some h) = .error .unauthenticated) ∧
    (authGate verify db (some "Bearer ") = .error .unauthenticated) ∧
    (∀ h, h.startsWith "Bearer " = true → verify (h.drop 7) = .malformed →
      authGate verify db (some h) = .error .unauthenticated) ∧
    (∀ h, h.startsWith "Bearer " = true → verify (h.drop 7) = .expired →
      authGate verify db (some h) = .error .unauthenticated) ∧
    (∀ h uid, h.startsWith "Bearer " = true → verify (h.drop 7) = .valid uid →
      findUserById db uid = none →
      authGate verify db (some h) = .error .unauthenticated) ∧
    (∀ uid, (∀ u ∈ db, u.id = uid → u.isActive = false) →
      findUserById db uid = none) ∧
    (∀ h uid u, h.startsWith "Bearer " = true → h.drop 7 ≠ "" →
      verify (h.drop 7) = .valid uid → findUserById db uid = some u →
      authGate verify db (some h)
        = .ok { id := u.id, name := u.name, email := u.email, role := u.role,
                isVerified := u.isVerified }) := by
  refine ⟨rfl, ?_, ?_, ?_, ?_, ?_, ?_, ?_⟩
  · intro h hs
    simp [authGate, hs]
  · have he : "Bearer ".drop 7 = "" := by with_unfolding_all decide
    have hs : "Bearer ".startsWith "Bearer " = true := by with_unfolding_all decide
    simp [authGate, hs, he]
  · intro h hs hm
    by_cases he : h.drop 7 = ""
    · simp [authGate, hs, he]
    · simp [authGate, hs, he, hm]
  · intro h hs hm
    by_cases he : h.drop 7 = ""
    · simp [authGate, hs, he]
    · simp [authGate, hs, he, hm]
  · intro h uid hs hv hf
    by_cases he : h.drop 7 = ""
    · simp [authGate, hs, he]
    · simp [authGate, hs, he, hv, hf]
  · intro uid hall
    apply List.find?_eq_none.mpr
    intro x hx
    rw [List.mem_filter] at hx
    intro hxid
    have hact := hall x hx.1 (by simpa using hxid)
    simp [hact] at hx
  · intro h uid u hs he hv hf
    simp [authGate, hs, he, hv, hf]

/-- Witness for C6: the valid token of the one-user database resolves and
the gate attaches the identity of user 1. -/
theorem c6_auth_gate_witness :
    authGate c6Verify c6Db (some "Bearer tok1")
      = .ok { id := 1, name := "Ann", email := "ann@example.com",
              role := .user, isVerified := true } :=
  (c6_auth_gate c6Verify c6Db).2.2.2.2.2.2.2 "Bearer tok1" 1 c2User
    (by with_unfolding_all decide) (by with_unfolding_all decide)
    (by with_unfolding_all decide) (by with_unfolding_all decide)

/-- Claim C8 (counterexample): two users that differ only in the sensitive
lockUntil field can serialize differently, because the JSON output carries
the isLocked virtual derived from lockUntil; here one account is clean and
the other locked until time 1000, and their serializations at time 0
differ. -/
theorem c8_serialization_leak :
    c2User.id = c8LockedUser.id ∧
    c2User.name = c8LockedUser.name ∧
    c2User.email = c8LockedUser.email ∧
    c2User.role = c8LockedUser.role ∧
    c2User.isVerified = c8LockedUser.isVerified ∧
    c2User.isActive = c8LockedUser.isActive ∧
    c2User.lastLogin = c8LockedUser.lastLogin ∧
    c2User.tasksCreated = c8LockedUser.tasksCreated ∧
    c2User.tasksCompleted = c8LockedUser.tasksCompleted ∧
    c2User.totalTimeSpent = c8LockedUser.totalTimeSpent ∧
    c2User.password = c8LockedUser.password ∧
    c2User.loginAttempts = c8LockedUser.loginAttempts ∧
    c2User.lockUntil ≠ c8LockedUser.lockUntil ∧
    User.toJson 0 c2User ≠ User.toJson 0 c8LockedUser := by
  decide

/-- Claim C8 (amended): a save with a modified password stores the bcrypt
hash of the plaintext and never the plaintext itself; the JSON transform
omits password, loginAttempts and lockUntil, so two users agreeing on all
other stored fields serialize identically provided their derived isLocked
virtual agrees at serialization time (the virtual is included in the
output, so a lockUntil difference can still be observed through it). -/
theorem c8_sensitive_fields (now : Time) (u1 u2 : User) :
    (∀ (u : User) (p : String),
      (preSavePassword true { u with password := PwString.lit p }).password
        = PwString.bcryptHash 12 (PwString.lit p) ∧
      PwString.bcryptHash 12 (PwString.lit p) ≠ PwString.lit p) ∧
    (u1.id = u2.id → u1.name = u2.name → u1.email = u2.email →
      u1.role = u2.role → u1.isVerified = u2.isVerified →
      u1.isActive = u2.isActive → u1.lastLogin = u2.lastLogin →
      u1.tasksCreated = u2.tasksCreated → u1.tasksCompleted = u2.tasksCompleted →
      u1.totalTimeSpent = u2.totalTimeSpent →
      u1.isLocked now = u2.isLocked now →
      User.toJson now u1 = User.toJson now u2) := by
  constructor
  · intro u p
    exact ⟨rfl, by simp⟩
  · intro h1 h2 h3 h4 h5 h6 h7 h8 h9 h10 h11
    simp [User.toJson, UserJson.mk.injEq, h1, h2, h3, h4, h5, h6, h7, h8, h9,
      h10, h11]

/-- Witness for C8: two users differing only in stored password and attempt
counter serialize to the same JSON. -/
theorem c8_sensitive_fields_witness :
    User.toJson 0 c2User = User.toJson 0 c8OtherPwUser :=
  (c8_sensitive_fields 0 c2User c8OtherPwUser).2 rfl rfl rfl rfl rfl rfl rfl rfl
    rfl rfl rfl

end TaskflowPro
